import Mathlib

/-!
Shallow embedding of `src/wb_gad_helper.py` (worldbank/WB_GAD).

The module fetches World Bank classification hierarchies, flattens the
nested code tree, reshapes the dotted URN strings into a long table of
(group, value, ISO3) records, filters them against region/income
whitelists, pivots to a wide table, and offers QA helpers
(`merge_id_columns`, `check_duplicates`).

HTTP fetching and JSON parsing are external; the embedding starts from the
parsed node tree `response["Hierarchy"][0]["codes"]`, modelled as
`List Node`.  Every node of the fusion-json format has an `id` and a
`urn`; the nested `codes` list is optional (`Option (List Node)` models a
possibly missing `"codes"` key).  Pandas missing values (NaN) are modelled
as `Option.none`; a dataframe column is a `List (Option String)`.
-/

/-- Node of the fusion-json hierarchy: an `id`, a `urn`, and an optional
nested `codes` list (absent key modelled as `none`). -/
inductive Node where
  | mk (id : String) (urn : String) (codes : Option (List Node))

def Node.id : Node → String
  | .mk i _ _ => i

def Node.urn : Node → String
  | .mk _ u _ => u

def Node.codes : Node → Option (List Node)
  | .mk _ _ c => c

/-- Python `str.split(sep)` for a single-character separator, on the
character list: splitting the empty text yields `[[]]`, and every
separator occurrence starts a new chunk. -/
def splitCharsOn (sep : Char) : List Char → List (List Char)
  | [] => [[]]
  | c :: cs =>
    match splitCharsOn sep cs with
    | [] => if c = sep then [[], []] else [[c]]
    | r :: rs => if c = sep then [] :: r :: rs else (c :: r) :: rs

/-- Python `s.split(sep)` for a single-character separator. -/
def pySplit (sep : Char) (s : String) : List String :=
  (splitCharsOn sep s.data).map String.mk

/-- Python `s.split(")")[-1]`: the substring after the last `)` (the whole
string when no `)` occurs; `str.split` always yields a nonempty list). -/
def afterLastParen (s : String) : String :=
  (pySplit ')' s).getLastD ""

/-- Flattening loop of `get_wb_classifications` (lines 29-34).  Python:
`for item in codes: for sub_item in item["codes"]: if "codes" in sub_item:
for sub2_item in sub_item["codes"]: append(urn.split(")")[-1])`.
A first-level `item` without a `"codes"` key raises `KeyError`; a
second-level node without one is skipped by the explicit membership test. -/
def flattenRAG : List Node → Except String (List String)
  | [] => Except.ok []
  | item :: rest =>
    match item.codes with
    | none => Except.error "KeyError: codes"
    | some subs =>
      match flattenRAG rest with
      | Except.error e => Except.error e
      | Except.ok tail =>
        Except.ok
          (((subs.map (fun sub =>
              match sub.codes with
              | none => []
              | some sub2s => sub2s.map (fun sub2 => afterLastParen sub2.urn))).flatten)
            ++ tail)

/-- Flattening comprehension of `get_wb_classifications_strict`
(lines 90-95).  Python: `[... for item in codes for sub in
item.get("codes", []) for sub2 in sub.get("codes", [])]` — a missing
`"codes"` key at either level contributes the empty list. -/
def flattenRAGStrict (items : List Node) : List String :=
  ((items.map (fun item =>
      (((item.codes.getD []).map (fun sub =>
          (sub.codes.getD []).map (fun sub2 => afterLastParen sub2.urn))).flatten))).flatten)

/-- Region whitelist ids (lines 107-111): `[sub["id"] for item in codes
for sub in item.get("codes", [])]`. -/
def regionIds (items : List Node) : List String :=
  ((items.map (fun item => (item.codes.getD []).map Node.id)).flatten)

/-- Income whitelist ids (line 115): `[item["id"] for item in codes]`. -/
def incomeIds (items : List Node) : List String :=
  items.map Node.id

/-- Python `urn.split(".")`. -/
def splitURN (urn : String) : List String :=
  pySplit '.' urn

/-- Row of the long table after `str.split(".", expand=True)`,
`.drop(columns=[0])` and `.rename(columns={1: "group", 2: "value",
3: "ISO3"})` (lines 37-42 and 98-103).  Pandas fills positions missing
from a short split with NaN, modelled as `none`. -/
structure OptRow where
  group : Option String
  value : Option String
  ISO3 : Option String
deriving DecidableEq, Repr

/-- Long-table row built from one URN: segment 1 becomes `group`,
segment 2 `value`, segment 3 `ISO3`; segment 0 is dropped. -/
def urnToRow (urn : String) : OptRow :=
  { group := (splitURN urn).get? 1
    value := (splitURN urn).get? 2
    ISO3 := (splitURN urn).get? 3 }

/-- Long-form reshape: one row per URN, in order. -/
def reshapeLong (urns : List String) : List OptRow :=
  urns.map urnToRow

/-- The `get_wb_classifications` pipeline from the parsed top-level codes
list.  When no leaf is collected, `pd.DataFrame([])` has no `Code_URN`
column and the subscript on line 37 raises `KeyError`. -/
def get_wb_classifications (hierarchyCodes : List Node) :
    Except String (List OptRow) :=
  match flattenRAG hierarchyCodes with
  | Except.error e => Except.error e
  | Except.ok [] => Except.error "KeyError: Code_URN"
  | Except.ok urns => Except.ok (reshapeLong urns)

/-- Pandas `series.isin(valid_values)` on the `value` column: NaN is never
a member of a set of strings. -/
def valueIn (v : Option String) (valid : List String) : Bool :=
  match v with
  | some s => valid.contains s
  | none => false

/-- One pass of the filtering loop on lines 122-125:
`res_split = res_split[~((res_split["group"] == grp) &
(~res_split["value"].isin(valid_values)))]`.  A NaN `group` compares
unequal to `grp`. -/
def filterGroup (grp : String) (valid : List String) (rows : List OptRow) :
    List OptRow :=
  rows.filter (fun r => !(r.group == some grp && !(valueIn r.value valid)))

/-- The whole filtering loop: `filters = {"REGION": ..., "INCOME": ...}`
iterated in insertion order, REGION first then INCOME. -/
def filterStrict (regionSet incomeSet : List String) (rows : List OptRow) :
    List OptRow :=
  filterGroup "INCOME" incomeSet (filterGroup "REGION" regionSet rows)

/-- Fully populated long-table row (all three named columns present), the
shape the pivot stage works on.  Rows whose `ISO3` or `group` is NaN are
dropped by pandas `groupby` on the pivot keys. -/
structure Row3 where
  group : String
  value : String
  ISO3 : String
deriving DecidableEq, Repr

/-- Pandas `groupby` key handling for the pivot: rows with a NaN `ISO3` or
`group` key are dropped.  A surviving row whose `value` is NaN would make
the aggregation on line 133 raise; such rows are also dropped here and the
pivot-stage theorems are stated over fully populated rows. -/
def toRow3 (r : OptRow) : Option Row3 :=
  match r.group, r.value, r.ISO3 with
  | some g, some v, some i => some { group := g, value := v, ISO3 := i }
  | _, _, _ => none

/-- Python string comparison `a <= b` on character lists: lexicographic by
code point. -/
def charLe : List Char → List Char → Bool
  | [], _ => true
  | _ :: _, [] => false
  | a :: as, b :: bs =>
    if a.toNat < b.toNat then true
    else if b.toNat < a.toNat then false
    else charLe as bs

/-- Python string comparison `a <= b`. -/
def pyLe (a b : String) : Bool :=
  charLe a.data b.data

/-- Python built-in `sorted` on a list of strings (ascending by `pyLe`). -/
def pySorted (xs : List String) : List String :=
  xs.insertionSort (fun a b => pyLe a b = true)

/-- The `value` entries of the pivot cell group for one `(ISO3, group)`
pair (the series `x` handed to the `aggfunc` on line 133). -/
def cellValues (rows : List Row3) (iso g : String) : List String :=
  (rows.filter (fun r => r.ISO3 == iso && r.group == g)).map Row3.value

/-- One cell of the pivot table (lines 128-136):
`aggfunc=lambda x: ",".join(sorted(set(x)))` where the group exists,
NaN where the `(ISO3, group)` combination has no row. -/
def pivotCell (rows : List Row3) (iso g : String) : Option String :=
  if (cellValues rows iso g).isEmpty then none
  else some (String.intercalate "," (pySorted (cellValues rows iso g).dedup))

/-- Row labels of the pivot table: `pivot_table` sorts the distinct values
of the `index` column. -/
def sortedISO3 (rows : List Row3) : List String :=
  pySorted (rows.map Row3.ISO3).dedup

/-- Columns of `wide` after `reset_index()` (line 135): `ISO3` followed by
the sorted distinct groups. -/
def wideColumnNames (rows : List Row3) : List String :=
  "ISO3" :: pySorted (rows.map Row3.group).dedup

/-- The projection list on line 139: `[col for col in type_to_keep if col
in wide.columns]`. -/
def keptColumns (rows : List Row3) (ttk : List String) : List String :=
  ttk.filter (fun c => (wideColumnNames rows).contains c)

/-- The returned wide table (lines 128-139): one entry per distinct ISO3
(sorted), holding the kept columns in `type_to_keep` order with the
aggregated cell for each. -/
def strictWide (rows : List Row3) (ttk : List String) :
    List (String × List (String × Option String)) :=
  (sortedISO3 rows).map (fun iso =>
    (iso, (keptColumns rows ttk).map (fun c => (c, pivotCell rows iso c))))

/-- The `get_wb_classifications_strict` pipeline from the three parsed
hierarchies (lines 88-139): flatten, reshape, whitelist-filter, pivot,
project.  As for the plain variant, an empty leaf list makes the
`Code_URN` subscript raise. -/
def get_wb_classifications_strict (rag regions income : List Node)
    (type_to_keep : List String) :
    Except String (List (String × List (String × Option String))) :=
  match flattenRAGStrict rag with
  | [] => Except.error "KeyError: Code_URN"
  | urns =>
    Except.ok
      (strictWide
        ((filterStrict (regionIds regions) (incomeIds income)
            (reshapeLong urns)).filterMap toRow3)
        type_to_keep)

/-- Output column name on line 160: `col_def[-1][:-1] + "c"` — the
fallback column's name with its last character stripped, then `"c"`. -/
def outColName (fallbackName : String) : String :=
  fallbackName.dropRight 1 ++ "c"

/-- Lines 161-162: the output column starts as a copy of the primary
column and `fillna` replaces its missing entries with the row-aligned
fallback entries. -/
def mergePair (primary fallback : List (Option String)) :
    List (Option String) :=
  List.zipWith
    (fun p f =>
      match p with
      | some v => some v
      | none => f)
    primary fallback

/-- Dataframe model for the QA helpers: association list from column name
to column. -/
abbrev Frame : Type :=
  List (String × List (Option String))

/-- Column read `in_df[name]` (empty when absent; the helpers only read
columns the caller names). -/
def colOf (df : Frame) (name : String) : List (Option String) :=
  match df.lookup name with
  | some vals => vals
  | none => []

/-- Column write `in_df[out_col] = ...`: replace an existing column of
that name, otherwise append a new one. -/
def setCol (df : Frame) (name : String) (vals : List (Option String)) :
    Frame :=
  if (df.map Prod.fst).contains name then
    df.map (fun c => if c.1 = name then (name, vals) else c)
  else df ++ [(name, vals)]

/-- The loop of `merge_id_columns` (lines 159-165) with
`drop_orig=False`: for each `(primary, fallback)` pair, write the
coalesced column under `outColName fallback`. -/
def merge_id_columns (df : Frame) (colDefs : List (String × String)) :
    Frame :=
  colDefs.foldl
    (fun acc cd =>
      setCol acc (outColName cd.2) (mergePair (colOf acc cd.1) (colOf acc cd.2)))
    df

/-- Row of the boundary dataframe handed to `check_duplicates`: the id
column entry plus an opaque payload standing for the remaining columns. -/
structure DupRow where
  id : String
  payload : String
deriving DecidableEq, Repr

/-- Pandas `series.duplicated()` (default `keep="first"`): marks each
entry that equals an earlier entry. -/
def duplicatedEarlier (seen : List String) : List String → List Bool
  | [] => []
  | x :: xs => seen.contains x :: duplicatedEarlier (x :: seen) xs

/-- Line 180: `in_df[id_col].duplicated().sum()`. -/
def dupCount (ids : List String) : Nat :=
  ((duplicatedEarlier [] ids).filter (fun b => b)).length

/-- Pandas `series.duplicated(keep=False)`: marks every entry whose value
occurs at least twice. -/
def maskKeepFalse (ids : List String) : List Bool :=
  ids.map (fun x => 2 ≤ ids.count x)

/-- Boolean-mask row selection `df[mask]` for an index-aligned mask. -/
def selectRows (rows : List DupRow) (mask : List Bool) : List DupRow :=
  ((rows.zip mask).filter (fun rm => rm.2)).map Prod.fst

/-- The `check_duplicates` body (lines 180-185).  Line 184 reads the
duplicate mask from `merged_adm1`, a name that is not a parameter and not
defined in the module: it resolves to an enclosing or global scope, passed
here as `merged_adm1 : Option (List DupRow)` (`none` when no such name is
in scope, in which case Python raises `NameError`).  The written rows are
`in_df` rows selected by the mask computed from `merged_adm1`, not from
`in_df`.  Returns the rows written to `out_file`, `none` when no file is
written. -/
def check_duplicates (merged_adm1 : Option (List DupRow))
    (in_df : List DupRow) : Except String (Option (List DupRow)) :=
  if 0 < dupCount (in_df.map DupRow.id) then
    match merged_adm1 with
    | none => Except.error "NameError: merged_adm1 is not defined"
    | some m =>
      Except.ok (some (selectRows in_df (maskKeepFalse (m.map DupRow.id))))
  else Except.ok none

theorem charLe_total (as bs : List Char) :
    charLe as bs = true ∨ charLe bs as = true := by
  induction as generalizing bs with
  | nil => left; rfl
  | cons a as ih =>
    cases bs with
    | nil => right; rfl
    | cons b bs =>
      by_cases h1 : a.toNat < b.toNat
      · left; simp [charLe, h1]
      · by_cases h2 : b.toNat < a.toNat
        · right; simp [charLe, h2]
        · rcases ih bs with h | h
          · left; simp [charLe, h1, h2, h]
          · right; simp [charLe, h1, h2, h]

theorem charLe_trans (as bs cs : List Char) (hab : charLe as bs = true)
    (hbc : charLe bs cs = true) : charLe as cs = true := by
  induction as generalizing bs cs with
  | nil => rfl
  | cons a as ih =>
    cases bs with
    | nil => exact absurd hab (by simp [charLe])
    | cons b bs =>
      cases cs with
      | nil => exact absurd hbc (by simp [charLe])
      | cons c cs =>
        simp only [charLe] at hab hbc ⊢
        by_cases h1 : a.toNat < b.toNat <;> by_cases h2 : b.toNat < a.toNat <;>
          by_cases h3 : b.toNat < c.toNat <;> by_cases h4 : c.toNat < b.toNat <;>
          by_cases h5 : a.toNat < c.toNat <;> by_cases h6 : c.toNat < a.toNat <;>
          simp_all <;>
          first
          | omega
          | (left; omega)
          | (right; exact ih bs cs hab hbc)

instance : IsTotal String (fun a b => pyLe a b = true) :=
  ⟨fun a b => charLe_total a.data b.data⟩

instance : IsTrans String (fun a b => pyLe a b = true) :=
  ⟨fun a b c => charLe_trans a.data b.data c.data⟩

theorem pySorted_perm (xs : List String) : (pySorted xs).Perm xs :=
  List.perm_insertionSort _ xs

theorem mem_pySorted {a : String} {xs : List String} :
    a ∈ pySorted xs ↔ a ∈ xs :=
  (pySorted_perm xs).mem_iff

theorem pySorted_sorted (xs : List String) :
    (pySorted xs).Sorted (fun a b => pyLe a b = true) :=
  List.sorted_insertionSort _ xs

theorem filterComp {α : Type} (p q : α → Bool) (l : List α) :
    (l.filter p).filter q = l.filter (fun a => p a && q a) := by
  induction l with
  | nil => rfl
  | cons x xs ih =>
    by_cases hp : p x
    · by_cases hq : q x <;> simp [List.filter_cons, hp, hq, ih]
    · simp [List.filter_cons, hp, ih]

/-- C1: the long-form reshape (shared by `get_wb_classifications` and the
long-table stage of `get_wb_classifications_strict`) splits each leaf URN
on ".", discards segment 0, maps segment 1 to `group`, segment 2 to
`value`, segment 3 to `ISO3`, and produces exactly one row per URN; in
particular "X.REGION.SAS.IND" yields group="REGION", value="SAS",
ISO3="IND". -/
theorem c1_long_reshape_segments (urns : List String) :
    (reshapeLong urns).length = urns.length ∧
    (∀ i, (reshapeLong urns).get? i =
      (urns.get? i).map (fun u =>
        { group := (splitURN u).get? 1
          value := (splitURN u).get? 2
          ISO3 := (splitURN u).get? 3 })) ∧
    urnToRow "X.REGION.SAS.IND" =
      { group := some "REGION", value := some "SAS", ISO3 := some "IND" } := by
  refine ⟨List.length_map _ _, fun i => ?_, by decide⟩
  show (urns.map urnToRow).get? i = _
  rw [List.get?_map]
  cases urns.get? i <;> rfl

/-- C2: a long-table row is removed by the strict filter exactly when its
group is "REGION" with a value outside the flattened `H_WB_REGIONS` ids,
or its group is "INCOME" with a value outside the flattened `H_WB_INCOME`
ids; rows of any other group (e.g. "CONTINENT") are kept unconditionally. -/
theorem c2_whitelist_filter (regions income : List Node) (rows : List OptRow) :
    filterStrict (regionIds regions) (incomeIds income) rows =
      rows.filter (fun r =>
        !((r.group == some "REGION" && !(valueIn r.value (regionIds regions))) ||
          (r.group == some "INCOME" && !(valueIn r.value (incomeIds income))))) := by
  unfold filterStrict filterGroup
  rw [filterComp]
  simp only [Bool.not_or]

/-- C8: applying the REGION/INCOME whitelist filter a second time with the
same whitelists leaves the long table unchanged. -/
theorem c8_filter_idempotent (regionSet incomeSet : List String)
    (rows : List OptRow) :
    filterStrict regionSet incomeSet (filterStrict regionSet incomeSet rows) =
      filterStrict regionSet incomeSet rows := by
  unfold filterStrict filterGroup
  simp only [filterComp]
  congr 1
  funext r
  cases hR : (r.group == some "REGION" && !(valueIn r.value regionSet)) <;>
    cases hI : (r.group == some "INCOME" && !(valueIn r.value incomeSet)) <;>
    simp [hR, hI]

/-- C5 counterexample: on a hierarchy whose only leaf URN "A.B" has two
dot-segments, `get_wb_classifications` succeeds and returns a row whose
`value` and `ISO3` entries are null — it does not fail. -/
theorem c5_counterexample :
    get_wb_classifications
        [Node.mk "i" "(A)i" (some [Node.mk "s" "(A)s"
          (some [Node.mk "l" "(A)A.B" none])])] =
      Except.ok [{ group := some "B", value := none, ISO3 := none }] := rfl

/-- C5 amended: a leaf URN whose dot-split has fewer than 4 segments does
not make the long-form reshape fail; it still contributes exactly one row,
whose `ISO3` entry (and any other entry past the split's length) is null. -/
theorem c5_amended_null_columns (u : String)
    (h : (splitURN u).length < 4) :
    reshapeLong [u] = [urnToRow u] ∧ (urnToRow u).ISO3 = none := by
  refine ⟨rfl, ?_⟩
  show (splitURN u).get? 3 = none
  exact List.get?_eq_none.mpr (by omega)

theorem c5_witness :
    (splitURN "A.B").length < 4 ∧
      (reshapeLong ["A.B"] = [urnToRow "A.B"] ∧ (urnToRow "A.B").ISO3 = none) :=
  ⟨by decide, c5_amended_null_columns "A.B" (by decide)⟩

/-- C6 counterexample: a hierarchy with two leaves, one URN of 4 segments
and one of 2, yields a long table with 2 rows, while only 1 leaf URN has
at least 4 dot-segments. -/
theorem c6_counterexample :
    get_wb_classifications
        [Node.mk "i" "(A)i" (some [Node.mk "s" "(A)s"
          (some [Node.mk "l1" "(A)X.REGION.SAS.IND" none,
                 Node.mk "l2" "(A)A.B" none])])] =
      Except.ok
        [{ group := some "REGION", value := some "SAS", ISO3 := some "IND" },
         { group := some "B", value := none, ISO3 := none }] ∧
    flattenRAG
        [Node.mk "i" "(A)i" (some [Node.mk "s" "(A)s"
          (some [Node.mk "l1" "(A)X.REGION.SAS.IND" none,
                 Node.mk "l2" "(A)A.B" none])])] =
      Except.ok ["X.REGION.SAS.IND", "A.B"] ∧
    (["X.REGION.SAS.IND", "A.B"].filter
        (fun u => 4 ≤ (splitURN u).length)).length = 1 ∧
    ([{ group := some "REGION", value := some "SAS", ISO3 := some "IND" },
      { group := some "B", value := none, ISO3 := none }] : List OptRow).length ≠ 1 :=
  ⟨rfl, rfl, by decide, by decide⟩

/-- C6 amended: whenever the flattening of the ref-area-groups hierarchy
succeeds with a nonempty URN list, the long table has exactly one row per
leaf URN — every leaf contributes a row, regardless of its dot-segment
count. -/
theorem c6_amended_row_count (rag : List Node) (urns : List String)
    (hflat : flattenRAG rag = Except.ok urns) (hne : urns ≠ []) :
    get_wb_classifications rag = Except.ok (reshapeLong urns) ∧
      (reshapeLong urns).length = urns.length := by
  constructor
  · unfold get_wb_classifications
    rw [hflat]
    cases urns with
    | nil => exact absurd rfl hne
    | cons a l => rfl
  · exact List.length_map _ _

theorem c6_witness :
    get_wb_classifications
        [Node.mk "i" "(A)i" (some [Node.mk "s" "(A)s"
          (some [Node.mk "l1" "(A)X.REGION.SAS.IND" none])])] =
      Except.ok (reshapeLong ["X.REGION.SAS.IND"]) ∧
    (reshapeLong ["X.REGION.SAS.IND"]).length = ["X.REGION.SAS.IND"].length :=
  c6_amended_row_count _ _ rfl (by decide)

/-- C7 counterexample: a first-level node without a nested `codes` key is
not silently skipped by `get_wb_classifications` — the call fails with a
`KeyError` — although `get_wb_classifications_strict`'s flattener does
skip it. -/
theorem c7_counterexample :
    get_wb_classifications [Node.mk "TOP" "(A)top" none] =
      Except.error "KeyError: codes" ∧
    flattenRAGStrict [Node.mk "TOP" "(A)top" none] = [] :=
  ⟨rfl, rfl⟩

/-- C7 amended: the strict flattener silently skips a node lacking `codes`
at either traversed level; the non-strict flattener skips such a node only
at the second level, and fails with a `KeyError` on a first-level node
lacking `codes`. -/
theorem c7_amended_skip (i u j v : String) (subs rest : List Node) :
    flattenRAGStrict (Node.mk i u none :: rest) = flattenRAGStrict rest ∧
    flattenRAGStrict (Node.mk i u (some (Node.mk j v none :: subs)) :: rest) =
      flattenRAGStrict (Node.mk i u (some subs) :: rest) ∧
    flattenRAG (Node.mk i u (some (Node.mk j v none :: subs)) :: rest) =
      flattenRAG (Node.mk i u (some subs) :: rest) ∧
    flattenRAG (Node.mk i u none :: rest) = Except.error "KeyError: codes" := by
  refine ⟨rfl, rfl, ?_, rfl⟩
  cases h : flattenRAG rest <;> simp [flattenRAG, Node.codes, h]

theorem keptColumns_of_no_iso3 (rows : List Row3) (ttk : List String)
    (h : "ISO3" ∉ ttk) :
    keptColumns rows ttk =
      ttk.filter (fun c => (rows.map Row3.group).contains c) := by
  unfold keptColumns
  apply List.filter_congr
  intro c hc
  have hne : c ≠ "ISO3" := fun e => h (e ▸ hc)
  simp [wideColumnNames, List.contains, hne, mem_pySorted, List.mem_dedup]

/-- C4: the ISO3 column of the wide table holds exactly the distinct ISO3
values of the filtered long table, and the non-ISO3 columns are exactly
the `type_to_keep` entries occurring as a group in the filtered long
table, in `type_to_keep` order (stated for `type_to_keep` lists not
containing the literal column name "ISO3"). -/
theorem c4_wide_iso3_and_columns (rows : List Row3) (ttk : List String)
    (h : "ISO3" ∉ ttk) :
    (∀ i, i ∈ (strictWide rows ttk).map Prod.fst ↔ i ∈ rows.map Row3.ISO3) ∧
    (∀ iso cols, (iso, cols) ∈ strictWide rows ttk →
      cols.map Prod.fst =
        ttk.filter (fun c => (rows.map Row3.group).contains c)) := by
  constructor
  · intro i
    have hfst : (strictWide rows ttk).map Prod.fst = sortedISO3 rows := by
      rw [strictWide, List.map_map]
      exact List.map_id'' (fun _ => rfl) _
    rw [hfst, sortedISO3, mem_pySorted, List.mem_dedup]
  · intro iso cols hmem
    simp only [strictWide, List.mem_map] at hmem
    obtain ⟨x, hx, heq⟩ := hmem
    injection heq with h1 h2
    subst h1
    subst h2
    rw [List.map_map]
    have hid : ∀ y : String, (Prod.fst ∘ fun c => (c, pivotCell rows y c)) =
        (id : String → String) := fun y => rfl
    rw [hid, List.map_id]
    exact keptColumns_of_no_iso3 rows ttk h

/-- C3: for every (ISO3, group) pair present in the filtered long table
(with the group among `type_to_keep`), the wide table's cell at that row
and column is the comma-join of a list holding exactly the distinct value
strings observed for the pair, sorted ascending and without duplicates. -/
theorem c3_pivot_sorted_distinct_join (rows : List Row3) (ttk : List String)
    (iso g : String) (hg : g ∈ ttk)
    (hpair : ∃ r ∈ rows, r.ISO3 = iso ∧ r.group = g) :
    ∃ cols vs,
      (iso, cols) ∈ strictWide rows ttk ∧
      (g, some (String.intercalate "," vs)) ∈ cols ∧
      vs.Sorted (fun a b => pyLe a b = true) ∧ vs.Nodup ∧
      (∀ v, v ∈ vs ↔ ∃ r ∈ rows, r.ISO3 = iso ∧ r.group = g ∧ r.value = v) := by
  obtain ⟨r0, hr0, hI, hG⟩ := hpair
  have hr0f : r0 ∈ rows.filter (fun r => r.ISO3 == iso && r.group == g) := by
    rw [List.mem_filter]
    exact ⟨hr0, by simp [hI, hG]⟩
  have hv0 : r0.value ∈ cellValues rows iso g :=
    List.mem_map.mpr ⟨r0, hr0f, rfl⟩
  have hcellne : cellValues rows iso g ≠ [] := List.ne_nil_of_mem hv0
  have hcell : pivotCell rows iso g =
      some (String.intercalate "," (pySorted (cellValues rows iso g).dedup)) := by
    rw [pivotCell, if_neg]
    simp [List.isEmpty_iff, hcellne]
  refine ⟨(keptColumns rows ttk).map (fun c => (c, pivotCell rows iso c)),
    pySorted (cellValues rows iso g).dedup, ?_, ?_, pySorted_sorted _,
    (pySorted_perm _).nodup_iff.mpr (List.nodup_dedup _), ?_⟩
  · refine List.mem_map.mpr ⟨iso, ?_, rfl⟩
    rw [sortedISO3, mem_pySorted, List.mem_dedup]
    exact List.mem_map.mpr ⟨r0, hr0, hI⟩
  · refine List.mem_map.mpr ⟨g, ?_, by rw [hcell]⟩
    rw [keptColumns, List.mem_filter]
    refine ⟨hg, ?_⟩
    have hgmem : g ∈ wideColumnNames rows :=
      List.mem_cons_of_mem _
        ((mem_pySorted).mpr (List.mem_dedup.mpr (List.mem_map.mpr ⟨r0, hr0, hG⟩)))
    simp [List.contains, hgmem]
  · intro v
    rw [mem_pySorted, List.mem_dedup, cellValues]
    constructor
    · intro hv
      obtain ⟨r, hrf, hrv⟩ := List.mem_map.mp hv
      rw [List.mem_filter] at hrf
      obtain ⟨hrmem, hpred⟩ := hrf
      simp only [Bool.and_eq_true, beq_iff_eq] at hpred
      exact ⟨r, hrmem, hpred.1, hpred.2, hrv⟩
    · intro ⟨r, hrmem, h1, h2, h3⟩
      refine List.mem_map.mpr ⟨r, ?_, h3⟩
      rw [List.mem_filter]
      exact ⟨hrmem, by simp [h1, h2]⟩

theorem mergePair_length (p f : List (Option String))
    (h : p.length = f.length) : (mergePair p f).length = p.length := by
  simp [mergePair, List.length_zipWith, h]

theorem mergePair_get_some (p f : List (Option String))
    (h : p.length = f.length) :
    ∀ (i : Nat) (v : String), p[i]? = some (some v) → (mergePair p f)[i]? = some (some v) := by
  induction p generalizing f with
  | nil => intro i v hi; simp at hi
  | cons a p ih =>
    cases f with
    | nil => simp at h
    | cons b f =>
      intro i v hi
      cases i with
      | zero =>
        simp at hi
        simp [mergePair, hi]
      | succ n =>
        simp at hi
        simpa [mergePair] using ih f (by simpa using h) n v hi

theorem mergePair_get_none (p f : List (Option String))
    (h : p.length = f.length) :
    ∀ (i : Nat), p[i]? = some none → (mergePair p f)[i]? = f[i]? := by
  induction p generalizing f with
  | nil => intro i hi; simp at hi
  | cons a p ih =>
    cases f with
    | nil => simp at h
    | cons b f =>
      intro i hi
      cases i with
      | zero =>
        simp at hi
        simp [mergePair, hi]
      | succ n =>
        simp at hi
        simpa [mergePair] using ih f (by simpa using h) n hi

theorem mergePair_all_some (p f : List (Option String))
    (h : p.length = f.length) (hall : ∀ x ∈ p, x ≠ none) :
    mergePair p f = p := by
  induction p generalizing f with
  | nil => rfl
  | cons a p ih =>
    cases f with
    | nil => simp at h
    | cons b f =>
      have ha : a ≠ none := hall a (by simp)
      cases a with
      | none => exact absurd rfl ha
      | some v =>
        simp only [mergePair, List.zipWith_cons_cons]
        exact congrArg _ (ih f (by simpa using h)
          (fun x hx => hall x (List.mem_cons_of_mem _ hx)))

theorem mergePair_all_none (p f : List (Option String))
    (h : p.length = f.length) (hall : ∀ x ∈ p, x = none) :
    mergePair p f = f := by
  induction p generalizing f with
  | nil =>
    cases f with
    | nil => rfl
    | cons b f => simp at h
  | cons a p ih =>
    cases f with
    | nil => simp at h
    | cons b f =>
      have ha : a = none := hall a (by simp)
      subst ha
      simp only [mergePair, List.zipWith_cons_cons]
      exact congrArg _ (ih f (by simpa using h)
        (fun x hx => hall x (List.mem_cons_of_mem _ hx)))

theorem lookup_replaceCol (df : Frame) (n : String)
    (v : List (Option String)) :
    List.lookup n (df.map (fun c => if c.1 = n then (n, v) else c)) =
      (List.lookup n df).map (fun _ => v) := by
  induction df with
  | nil => rfl
  | cons c cs ih =>
    obtain ⟨k, w⟩ := c
    simp only [List.map_cons]
    by_cases hk : k = n
    · subst hk
      rw [if_pos rfl]
      simp [List.lookup]
    · rw [if_neg hk]
      have hk2 : (n == k) = false := by simp [Ne.symm hk]
      simp [List.lookup, hk2, ih]

theorem lookup_append_right (df : Frame) (n : String)
    (v : List (Option String)) (h : List.lookup n df = none) :
    List.lookup n (df ++ [(n, v)]) = some v := by
  induction df with
  | nil => simp [List.lookup]
  | cons c cs ih =>
    obtain ⟨k, w⟩ := c
    by_cases hk : (n == k)
    · simp [List.lookup, hk] at h
    · simp only [List.cons_append, List.lookup, hk] at h ⊢
      exact ih h

theorem lookup_isSome_eq_contains (df : Frame) (n : String) :
    (List.lookup n df).isSome = (df.map Prod.fst).contains n := by
  induction df with
  | nil => rfl
  | cons c cs ih =>
    obtain ⟨k, w⟩ := c
    by_cases hk : (n == k) <;> simp [List.lookup, List.contains, hk, ih]

theorem colOf_setCol_self (df : Frame) (n : String)
    (v : List (Option String)) : colOf (setCol df n v) n = v := by
  unfold colOf setCol
  by_cases hc : ((df.map Prod.fst).contains n : Bool)
  · rw [if_pos hc, lookup_replaceCol]
    have : (List.lookup n df).isSome := by rw [lookup_isSome_eq_contains]; exact hc
    cases hl : List.lookup n df with
    | none => rw [hl] at this; simp at this
    | some w => simp [hl]
  · rw [if_neg hc]
    have hnone : List.lookup n df = none := by
      have := lookup_isSome_eq_contains df n
      rw [Bool.eq_false_iff.mpr hc] at this  
      exact Option.not_isSome_iff_eq_none.mp (by simp [this])
    rw [lookup_append_right df n v hnone]

/-- C9: for each `(primary, fallback)` pair, `merge_id_columns` writes a
column named after the fallback with its last character replaced by "c",
whose entry at each row is the primary entry, falling back to the fallback
entry where the primary is null; a fully populated primary gives back the
primary column, a fully null primary gives the fallback column. -/
theorem c9_merge_id_columns (p f : List (Option String))
    (h : p.length = f.length) :
    (mergePair p f).length = p.length ∧
    (∀ (i : Nat) (v : String), p[i]? = some (some v) →
      (mergePair p f)[i]? = some (some v)) ∧
    (∀ (i : Nat), p[i]? = some none → (mergePair p f)[i]? = f[i]?) ∧
    ((∀ x ∈ p, x ≠ none) → mergePair p f = p) ∧
    ((∀ x ∈ p, x = none) → mergePair p f = f) ∧
    outColName "ADM1CD_t" = "ADM1CD_c" ∧
    (∀ (df : Frame) (a b : String),
      colOf (merge_id_columns df [(a, b)]) (outColName b) =
        mergePair (colOf df a) (colOf df b)) :=
  ⟨mergePair_length p f h, mergePair_get_some p f h, mergePair_get_none p f h,
   mergePair_all_some p f h, mergePair_all_none p f h, by decide,
   fun df a b => colOf_setCol_self df (outColName b)
     (mergePair (colOf df a) (colOf df b))⟩

theorem c9_witness :
    ([some "X", none] : List (Option String)).length =
      ([some "F1", some "F2"] : List (Option String)).length ∧
    (mergePair [some "X", none] [some "F1", some "F2"]).length =
      ([some "X", none] : List (Option String)).length :=
  ⟨by decide,
   (c9_merge_id_columns [some "X", none] [some "F1", some "F2"] (by decide)).1⟩

theorem c3_witness :
    ∃ cols vs,
      ("IND", cols) ∈ strictWide
          [{ group := "REGION", value := "SAS", ISO3 := "IND" },
           { group := "INCOME", value := "LMC", ISO3 := "IND" },
           { group := "REGION", value := "SAS", ISO3 := "PAK" }]
          ["REGION", "INCOME"] ∧
      ("REGION", some (String.intercalate "," vs)) ∈ cols ∧
      vs.Sorted (fun a b => pyLe a b = true) ∧ vs.Nodup ∧
      (∀ v, v ∈ vs ↔ ∃ r ∈
          [{ group := "REGION", value := "SAS", ISO3 := "IND" },
           { group := "INCOME", value := "LMC", ISO3 := "IND" },
           { group := "REGION", value := "SAS", ISO3 := "PAK" }],
        Row3.ISO3 r = "IND" ∧ Row3.group r = "REGION" ∧ Row3.value r = v) :=
  c3_pivot_sorted_distinct_join
    [{ group := "REGION", value := "SAS", ISO3 := "IND" },
     { group := "INCOME", value := "LMC", ISO3 := "IND" },
     { group := "REGION", value := "SAS", ISO3 := "PAK" }]
    ["REGION", "INCOME"] "IND" "REGION" (by decide) (by decide)

theorem c4_witness :
    ("ISO3" ∉ (["REGION", "INCOME"] : List String)) ∧
    ("IND" ∈
        (strictWide
          [{ group := "REGION", value := "SAS", ISO3 := "IND" },
           { group := "INCOME", value := "LMC", ISO3 := "IND" },
           { group := "REGION", value := "SAS", ISO3 := "PAK" }]
          ["REGION", "INCOME"]).map Prod.fst ↔
      "IND" ∈
        ([{ group := "REGION", value := "SAS", ISO3 := "IND" },
          { group := "INCOME", value := "LMC", ISO3 := "IND" },
          { group := "REGION", value := "SAS", ISO3 := "PAK" }] :
            List Row3).map Row3.ISO3) :=
  ⟨by decide,
   (c4_wide_iso3_and_columns
      [{ group := "REGION", value := "SAS", ISO3 := "IND" },
       { group := "INCOME", value := "LMC", ISO3 := "IND" },
       { group := "REGION", value := "SAS", ISO3 := "PAK" }]
      ["REGION", "INCOME"] (by decide)).1 "IND"⟩

/-- C10: the claim says `check_duplicates` writes exactly the rows of its
`in_df` argument that participate in a duplicate group of the id column.
The code instead builds the duplicate mask from `merged_adm1`, a name
resolved outside the function's own parameters: with no such name in scope
the call fails with a `NameError` as soon as the duplicate count is
positive, and with a stray `merged_adm1` in scope it selects `in_df` rows
by the other table's mask (here: none of them).  The count-zero path
writes nothing, as claimed. -/
theorem c10_check_duplicates_scope_bug :
    check_duplicates none
        [{ id := "A", payload := "r1" }, { id := "A", payload := "r2" }] =
      Except.error "NameError: merged_adm1 is not defined" ∧
    check_duplicates (some [{ id := "B", payload := "x" },
        { id := "C", payload := "y" }])
        [{ id := "A", payload := "r1" }, { id := "A", payload := "r2" }] =
      Except.ok (some []) ∧
    check_duplicates none
        [{ id := "A", payload := "r1" }, { id := "B", payload := "r2" }] =
      Except.ok none :=
  ⟨rfl, rfl, rfl⟩
